import Mathlib

set_option maxRecDepth 20000

/-!
Verification development for the template compiler in
`src/chameleon/compiler.py` (the tree-to-program compiler of the
chameleon template engine).

The development shallowly embeds the pieces of the compiler that the
stated properties concern:

* the compiler-internal name set and the dynamic name rewrite of
  `ExpressionCompiler._dynamic_transform`;
* the identity-keyed expression cache of `ExpressionCompiler.translate`
  and `Compiler.visit_Cache`;
* the emitted intermediate statement language together with an
  operational semantics (econtext/rcontext mappings, a local frame for
  compiler-generated temporaries, and the output stream), covering the
  statements emitted by `visit_Define`, `visit_Assignment`,
  `visit_OnError` and `visit_Repeat`;
* the translation-block message-id computation of `visit_Translate`
  and the guard of `visit_Name`.

Python object identity (`id(...)`), which the source uses to mint
backup/index/cache variable names and as the expression-cache key, is
modelled by explicit numeric identity tokens carried by the embedded
nodes.
-/

namespace ChameleonCompiler

/-- `COMPILER_INTERNALS_OR_DISALLOWED` (compiler.py lines 54-64): names that
are reserved by the compiler; they may not be assigned to, and the dynamic
name rewrite leaves them untouched. -/
def COMPILER_INTERNALS_OR_DISALLOWED : List String :=
  ["stream", "append", "econtext", "rcontext", "translate", "decode",
   "convert", "str", "len"]

/-- `ExpressionCompiler.global_fallback = set(builtins.__dict__)` (line 193):
the host interpreter's builtin names.  The set is a property of the host
environment, not of the repository; it is modelled here by a finite list of
common Python builtin names sufficient for the properties below (every name
listed really is a Python builtin, and `len` in particular is both a builtin
and a compiler-internal name). -/
def global_fallback : List String :=
  ["abs", "all", "any", "bool", "dict", "dir", "id", "int", "len", "list",
   "map", "max", "min", "object", "range", "repr", "set", "sorted", "str",
   "sum", "tuple", "type", "zip"]

/-- Expression context of a Python `ast.Name` node: being read (`ast.Load`)
or being written (`ast.Store`). -/
inductive NameCtx
  | loadCtx
  | storeCtx
deriving DecidableEq

/-- Result of the dynamic name rewrite, one constructor per shape of AST the
rewrite can return: the untouched name, `econtext[name]` in store context
(`store_econtext`, lines 102-104), `econtext.get('name', name)` (lines
258-264), or `econtext['name']` in load context (`load_econtext`, lines
98-99). -/
inductive Rewritten
  | unchanged (name : String)
  | storeEcontext (name : String)
  | econtextGetFallback (name : String)
  | loadEcontext (name : String)
deriving DecidableEq

/-- Python `name.startswith('_')`: whether the first character is an
underscore. -/
def startsWithUnderscore (s : String) : Bool :=
  match s.data with
  | c :: _ => c = '_'
  | [] => false

/-- `ExpressionCompiler._dynamic_transform` (compiler.py lines 242-267):
names starting with an underscore or listed in
`COMPILER_INTERNALS_OR_DISALLOWED` are left untouched; a stored name becomes
an `econtext` store; a read name that is a host builtin becomes
`econtext.get('name', name)`; any other read becomes `econtext['name']`. -/
def dynamicTransform (name : String) (ctx : NameCtx) : Rewritten :=
  if startsWithUnderscore name || name ∈ COMPILER_INTERNALS_OR_DISALLOWED then
    .unchanged name
  else
    match ctx with
    | .storeCtx => .storeEcontext name
    | .loadCtx =>
        if name ∈ global_fallback then .econtextGetFallback name
        else .loadEcontext name

/-! ### The expression sub-compiler's identity-keyed cache

`ExpressionCompiler.translate` (compiler.py lines 214-240).  Expression
objects are modelled with explicit identity tokens (`tid`), standing for
Python object identity, which is what keys `self.cache`.  The embedded
expression kinds are the ones the cache behaviour depends on: a raw,
already-lowered `ast.expr` (line 222), a template-level `Expression` node
(delegated to the external TALES engine, line 269-270), and `Negate`
(lines 272-274) as a representative recursive template-level kind.
A plain string argument is wrapped by the source in a *fresh* `Expression`
node (lines 228-229) and therefore can never hit the identity cache; string
arguments are not separately modelled. -/

/-- Embedded expression argument of `ExpressionCompiler.translate`. -/
inductive TExpr
  | rawExpr (eid : Nat)
  | expression (eid : Nat) (value : String)
  | negate (eid : Nat) (sub : TExpr)
deriving DecidableEq

/-- Identity token of an embedded expression (Python `id(expression)`). -/
def tid : TExpr → Nat
  | .rawExpr eid => eid
  | .expression eid _ => eid
  | .negate eid _ => eid

/-- Right-hand side of an emitted assignment statement. -/
inductive ESrc
  | var (x : String)
  | rawRef (eid : Nat)
deriving DecidableEq

/-- Statements produced by the expression sub-compiler: an assignment, the
human-readable comment inserted at line 236-238, the opaque statements
produced by the external TALES engine (`self.engine(node.value, target)`),
and the `TARGET = not TARGET` statement of `visit_Negate`. -/
inductive EStmt
  | assign (target : String) (src : ESrc)
  | comment (s : String)
  | engineCall (value : String) (target : String)
  | notTarget (target : String)
deriving DecidableEq

/-- The expression cache `self._expression_cache` (line 333), shared with the
`ExpressionCompiler` (line 337-341): identity token of the expression mapped
to the target variable that already holds its value. -/
def ECache := List (Nat × String)

/-- Lookup in the identity-keyed cache (`self.cache.get(expression)`). -/
def assocFind (k : Nat) : ECache → Option String
  | [] => none
  | (k2, v) :: rest => if k2 = k then some v else assocFind k rest

/-- Coarse model of Python `repr` of an expression node, used only inside
the emitted comment (line 237). -/
def exprRepr : TExpr → String
  | .rawExpr eid => "<ast " ++ toString eid ++ ">"
  | .expression _ v => "<Expression " ++ v ++ ">"
  | .negate _ sub => "<Negate " ++ exprRepr sub ++ ">"

/-- `ExpressionCompiler.translate` (compiler.py lines 214-240).  If the
expression is cached, a single assignment from the cached variable is
emitted and nothing is re-evaluated; a raw `ast.expr` is assigned directly
and *cached*; otherwise the kind-specific visitor runs and a comment is
prefixed — note that the visitor branch does not write to the cache. -/
def translate (cache : ECache) (e : TExpr) (target : String) :
    List EStmt × ECache :=
  match assocFind (tid e) cache with
  | some cached => ([.assign target (.var cached)], cache)
  | none =>
    match e with
    | .rawExpr eid => ([.assign target (.rawRef eid)], (eid, target) :: cache)
    | .expression _ v =>
        (.comment (" " ++ exprRepr e ++ " -> " ++ target)
           :: [.engineCall v target], cache)
    | .negate _ sub =>
        let r := translate cache sub target
        (.comment (" " ++ exprRepr e ++ " -> " ++ target)
           :: (r.1 ++ [.notTarget target]), r.2)

/-- The cache-variable name used by `visit_Cache`:
`identifier("cache", id(expression))` (line 670). -/
def cacheVarName (eid : Nat) : String := "_cache_" ++ toString eid

/-- `Compiler.visit_Cache` (compiler.py lines 666-682), the cache-priming
part: for each listed expression that is not already cached, compile it into
a fresh cache variable and record that variable in the expression cache.
(The subsequent `self.visit(node.node)` compiles the cached construct's body
through the dispatcher and is independent of the cache bookkeeping.) -/
def visit_Cache (cache : ECache) (exprs : List TExpr) : List EStmt × ECache :=
  exprs.foldl
    (fun acc e =>
      if (assocFind (tid e) acc.2).isSome then acc
      else
        let name := cacheVarName (tid e)
        let r := translate acc.2 e name
        (acc.1 ++ r.1, (tid e, name) :: r.2))
    ([], cache)

/-! ### Runtime values and exception classes

The emitted program runs against the dynamic context `econtext`, the
propagating context `rcontext`, the function-local temporaries (backup
variables, `_value`, `_item`, index handles, the recorded stream length of
`visit_OnError`), and the output stream `stream` (a Python list which the
program appends to).  Exception classes model the Python classes named in
`Compiler.exceptions` (lines 319-323) plus representative subclasses and
unrelated classes; `pyParent` records the relevant parts of Python's
exception class hierarchy (`KeyError` and `IndexError` derive from
`LookupError`), which governs what an `except (...)` clause catches. -/

inductive ExcClass
  | nameError
  | valueError
  | attributeError
  | lookupError
  | typeError
  | keyError
  | indexError
  | zeroDivisionError
  | runtimeError
deriving DecidableEq

/-- Immediate superclass, restricted to the classes modelled here. -/
def pyParent : ExcClass → Option ExcClass
  | .keyError => some .lookupError
  | .indexError => some .lookupError
  | _ => none

/-- Whether an exception of class `c` is caught by an `except` clause naming
class `t` (Python `isinstance` matching: the class itself or a subclass). -/
def excMatches (c t : ExcClass) : Bool :=
  c = t || pyParent c = some t

/-- Whether an `except (t₁, …, tₙ)` clause catches an exception of class
`c`. -/
def excMatchesAny (c : ExcClass) (ts : List ExcClass) : Bool :=
  ts.any (excMatches c)

/-- `Compiler.exceptions` (compiler.py lines 319-323): the recoverable
classes named in the `except` clause emitted by `visit_OnError`. -/
def exceptions : List ExcClass :=
  [.nameError, .valueError, .attributeError, .lookupError, .typeError]

/-- Runtime values: strings, naturals (list lengths, loop indices), the
`_marker` absence sentinel (line 348), Python `None`, opaque items, and
Python lists (iterables, unpacked tuples). -/
inductive Value
  | vStr (s : String)
  | vNat (n : Nat)
  | vMarker
  | vNone
  | vItem (n : Nat)
  | vList (l : List Value)

/-- Which context a subscript store targets: `econtext` or `rcontext`. -/
inductive CtxKind
  | e
  | r
deriving DecidableEq

/-- An assignment target: a single context subscript
(`econtext['x'] = …` / `rcontext['x'] = …`) or a tuple of context
subscripts (the multi-name unpacking targets of `visit_Assignment` lines
493-497 and `visit_Repeat` lines 785-791). -/
inductive Target
  | sub (c : CtxKind) (name : String)
  | tup (subs : List (CtxKind × String))
deriving DecidableEq

/-- Expressions appearing on the right of emitted statements:
literals, a local temporary, `econtext.get('name', default)`
(the backup capture of `_enter_assignment`, lines 856-863), and
`len(stream)` (the recorded length of `visit_OnError`, line 446). -/
inductive RExpr
  | lit (v : Value)
  | localVar (x : String)
  | econtextGetOr (name : String) (dflt : Value)
  | lenStream

/-- The emitted intermediate statements that the verified constructs
consist of:

* `append e` — `append(…)` onto the output stream;
* `assignLocal x e` — assignment to a function-local temporary;
* `assign targets e` — `t₁ = t₂ = … = e` with context-subscript targets;
* `restore b name` — the epilogue statement of `_leave_assignment`
  (lines 865-873): `if BACKUP is _marker: del econtext[KEY] else:
  econtext[KEY] = BACKUP`;
* `decr x` — `index -= 1` (line 828);
* `ifPos x body` — `if INDEX > 0: …` (lines 831-834);
* `tryExc body classes handler` — the `ast.TryExcept` of `visit_OnError`
  (lines 448-459);
* `delStreamFrom x` — `del stream[fallback:]` (line 455);
* `raiseE c` — a statement of the compiled body that raises;
* `comment s` — a no-op comment. -/
inductive Stmt
  | append (e : RExpr)
  | assignLocal (x : String) (e : RExpr)
  | assign (targets : List Target) (e : RExpr)
  | restore (b : String) (name : String)
  | decr (x : String)
  | ifPos (x : String) (body : List Stmt)
  | tryExc (body : List Stmt) (classes : List ExcClass) (handler : List Stmt)
  | delStreamFrom (x : String)
  | raiseE (c : ExcClass)
  | comment (s : String)

/-- A name-to-value mapping (Python dict, lookup-respecting). -/
def VMap := List (String × Value)

/-- Dict lookup. -/
def getKey (k : String) : VMap → Option Value
  | [] => none
  | (k2, v) :: rest => if k2 = k then some v else getKey k rest

/-- Dict update (`d[k] = v`): the new binding shadows earlier ones. -/
def setKey (m : VMap) (k : String) (v : Value) : VMap := (k, v) :: m

/-- Dict deletion (`del d[k]`): removes every binding of `k`. -/
def delKey (m : VMap) (k : String) : VMap := m.filter (fun p => p.1 ≠ k)

/-- Runtime state of the emitted program: the two contexts, the local
temporaries of the enclosing render function, and the output stream. -/
structure RTState where
  econtext : VMap
  rcontext : VMap
  locals : VMap
  stream : List Value

/-- The empty initial state: empty contexts, no temporaries, empty
stream. -/
def emptyState : RTState := ⟨[], [], [], []⟩

/-- Outcome of running emitted statements: normal completion, or an
uncaught exception of some class (the state at the raise is carried so
that partial effects on the stream and contexts remain observable). -/
inductive Outcome
  | ok (st : RTState)
  | raised (c : ExcClass) (st : RTState)

/-- Expression evaluation.  A read of an unbound local raises `NameError`
(Python's behaviour for an unassigned local read at function scope);
`econtext.get` never raises. -/
def evalExpr (st : RTState) : RExpr → Except ExcClass Value
  | .lit v => .ok v
  | .localVar x =>
      match getKey x st.locals with
      | some v => .ok v
      | none => .error .nameError
  | .econtextGetOr n d => .ok ((getKey n st.econtext).getD d)
  | .lenStream => .ok (.vNat st.stream.length)

/-- Store a value into one context subscript. -/
def storeSub (st : RTState) (c : CtxKind) (name : String) (v : Value) :
    RTState :=
  match c with
  | .e => { st with econtext := setKey st.econtext name v }
  | .r => { st with rcontext := setKey st.rcontext name v }

/-- Store a value through one assignment target.  Tuple targets unpack a
list value pairwise; a non-list raises `TypeError`, a length mismatch
raises `ValueError` (Python's unpacking errors). -/
def storeTarget (st : RTState) (t : Target) (v : Value) :
    Except ExcClass RTState :=
  match t with
  | .sub c name => .ok (storeSub st c name v)
  | .tup subs =>
      match v with
      | .vList vs =>
          if vs.length = subs.length then
            .ok ((subs.zip vs).foldl
              (fun acc p => storeSub acc p.1.1 p.1.2 p.2) st)
          else .error .valueError
      | _ => .error .typeError

/-- Store a value through each target of a multi-target assignment. -/
def storeTargets (st : RTState) (ts : List Target) (v : Value) :
    Except ExcClass RTState :=
  match ts with
  | [] => .ok st
  | t :: rest =>
      match storeTarget st t v with
      | .ok st2 => storeTargets st2 rest v
      | .error c => .error c

mutual

/-- Execution of a single emitted statement. -/
def execStmt (s : Stmt) (st : RTState) : Outcome :=
  match s with
  | .append e =>
      match evalExpr st e with
      | .ok v => .ok { st with stream := st.stream ++ [v] }
      | .error c => .raised c st
  | .assignLocal x e =>
      match evalExpr st e with
      | .ok v => .ok { st with locals := setKey st.locals x v }
      | .error c => .raised c st
  | .assign targets e =>
      match evalExpr st e with
      | .ok v =>
          match storeTargets st targets v with
          | .ok st2 => .ok st2
          | .error c => .raised c st
      | .error c => .raised c st
  | .restore b name =>
      match getKey b st.locals with
      | none => .raised .nameError st
      | some .vMarker =>
          match getKey name st.econtext with
          | none => .raised .keyError st
          | some _ => .ok { st with econtext := delKey st.econtext name }
      | some v => .ok { st with econtext := setKey st.econtext name v }
  | .decr x =>
      match getKey x st.locals with
      | some (.vNat n) => .ok { st with locals := setKey st.locals x (.vNat (n - 1)) }
      | some _ => .raised .typeError st
      | none => .raised .nameError st
  | .ifPos x body =>
      match getKey x st.locals with
      | some (.vNat n) => if 0 < n then execStmts body st else .ok st
      | some _ => .raised .typeError st
      | none => .raised .nameError st
  | .tryExc body classes handler =>
      match execStmts body st with
      | .ok st2 => .ok st2
      | .raised c st2 =>
          if excMatchesAny c classes then execStmts handler st2
          else .raised c st2
  | .delStreamFrom x =>
      match getKey x st.locals with
      | some (.vNat n) => .ok { st with stream := st.stream.take n }
      | some _ => .raised .typeError st
      | none => .raised .nameError st
  | .raiseE c => .raised c st
  | .comment _ => .ok st

/-- Sequential execution of a statement list; an uncaught exception aborts
the rest of the sequence. -/
def execStmts (l : List Stmt) (st : RTState) : Outcome :=
  match l with
  | [] => .ok st
  | s :: rest =>
      match execStmt s st with
      | .ok st2 => execStmts rest st2
      | r => r

end

/-! ### Compile-time functions of `Compiler`

These build the intermediate statements exactly as the Python visitors do.
`id(...)`-derived identifier suffixes are carried as explicit `Nat`
identity tokens. -/

/-- Compile-time failure.  `translationError msg arg` models
`chameleon.exc.TranslationError` with its message and optional second
argument; `indexErrorAtCompile` models a Python `IndexError` raised inside
the compiler itself (e.g. `[][-1]`); `nameErrorAtCompile` models a Python
`NameError` for a read of an unbound compiler-local variable. -/
inductive CompileErr
  | translationError (msg : String) (arg : Option String)
  | indexErrorAtCompile
  | nameErrorAtCompile
deriving DecidableEq

/-- `identifier("backup_%s" % name, id(names))` (lines 860, 870): the
backup variable for `name`, unique per identity of the `names` list of the
enclosing assignment, so that nested defines of the same name use distinct
backups. -/
def backupVar (name : String) (namesId : Nat) : String :=
  "_backup_" ++ name ++ "_" ++ toString namesId

/-- `identifier("_index", id(node))` (line 803): the index handle of a
`Repeat` construct. -/
def indexVar (nodeId : Nat) : String := "__index_" ++ toString nodeId

/-- `identifier("_fallback")` (line 445): the recorded stream length of
`visit_OnError`.  The suffix is `id("_fallback")` — the identity of the one
string literal in `visit_OnError`'s code object — so every `OnError`
construct in a compiled program shares this single local name; the fixed
token `1` stands for that one identity. -/
def fallbackVar : String := "__fallback_1"

/-- `Compiler._enter_assignment` (compiler.py lines 856-863): for each name,
capture `econtext.get(name, _marker)` into its backup variable.  (The
`local` parameter of the source function is unused by its body.) -/
def enterAssignment (names : List String) (namesId : Nat) : List Stmt :=
  names.map (fun n =>
    .assignLocal (backupVar n namesId) (.econtextGetOr n .vMarker))

/-- `Compiler._leave_assignment` (compiler.py lines 865-873): for each name,
in the same order, `if BACKUP is _marker: del econtext[KEY] else:
econtext[KEY] = BACKUP`. -/
def leaveAssignment (names : List String) (namesId : Nat) : List Stmt :=
  names.map (fun n => .restore (backupVar n namesId) n)

/-- One `Assignment` node as consumed by `visit_Assignment` /
`visit_Define`: the assigned names, the `local` flag, the identity token of
the `names` list object, and the statements the expression engine produced
for compiling `node.expression` into the local `_value` (the engine is the
out-of-scope expression collaborator, so its output is a parameter). -/
structure DefAssignment where
  names : List String
  localScope : Bool
  namesId : Nat
  exprStmts : List Stmt

/-- The assignment target of `visit_Assignment` (lines 492-500): a tuple of
`econtext` subscripts when there are several names, a single subscript for
one name.  (For an empty name list the source's `node.names[0]` would
itself raise; the claims only concern non-empty name lists.) -/
def assignmentTargets (names : List String) : List Target :=
  match names with
  | [n] => [.sub .e n]
  | ns => [.tup (ns.map (fun n => (CtxKind.e, n)))]

/-- `Compiler.visit_Assignment` (compiler.py lines 492-517): first every
name is checked against `COMPILER_INTERNALS_OR_DISALLOWED` — a hit raises
`TranslationError` before any statement of the assignment exists — then the
expression is compiled into `_value`, `_value` is stored through the
target(s), and, unless the assignment is local, also into
`rcontext[name]` for each name. -/
def visit_Assignment (a : DefAssignment) : Except CompileErr (List Stmt) :=
  match a.names.find? (fun n => n ∈ COMPILER_INTERNALS_OR_DISALLOWED) with
  | some n =>
      .error (.translationError ("Name disallowed by compiler: " ++ n ++ ".") none)
  | none =>
      .ok (a.exprStmts
        ++ [.assign (assignmentTargets a.names) (.localVar "_value")]
        ++ (if a.localScope then []
            else a.names.map (fun n => .assign [.sub .r n] (.localVar "_value"))))

/-- The per-assignment prologue+assignment part of `visit_Define`'s loop
(lines 523-531): for each assignment in order, the backup statements of
`_enter_assignment` followed by the compiled assignment. -/
def defineEntries (assignments : List DefAssignment) :
    Except CompileErr (List Stmt) :=
  match assignments with
  | [] => .ok []
  | a :: rest =>
      match visit_Assignment a with
      | .error e => .error e
      | .ok s =>
          match defineEntries rest with
          | .error e => .error e
          | .ok r => .ok (enterAssignment a.names a.namesId ++ s ++ r)

/-- `Compiler.visit_Define` (compiler.py lines 519-539): emit, per
assignment, backup capture then the assignment; then the compiled body;
then `_leave_assignment(names)` — where `names` is the loop variable left
over from the assignment loop, i.e. the names (and names-list identity) of
the **last** assignment only.  An empty assignment list would leave the
source's `names` unbound (`NameError`).  The compiled body is a parameter
(`self.visit(node.node)` recursing through the dispatcher); the `_scopes`
push/pop bracketing the visitor (lines 520-521, 539) is bookkeeping that
contributes no statements and is not modelled. -/
def visit_Define (assignments : List DefAssignment) (body : List Stmt) :
    Except CompileErr (List Stmt) :=
  match defineEntries assignments with
  | .error e => .error e
  | .ok pre =>
      match assignments.getLast? with
      | some a => .ok (pre ++ body ++ leaveAssignment a.names a.namesId)
      | none => .error .nameErrorAtCompile

/-- `Compiler.visit_OnError` (compiler.py lines 442-460): record
`len(stream)` in the shared fallback local, then guard the compiled body
with `except (NameError, ValueError, AttributeError, LookupError,
TypeError)` whose handler truncates the stream back to the recorded length
and runs the compiled fallback body. -/
def visit_OnError (body fallback : List Stmt) : List Stmt :=
  [ .assignLocal fallbackVar .lenStream,
    .tryExc body exceptions (.delStreamFrom fallbackVar :: fallback) ]

/-- The compiled pieces of a `Repeat` construct, in emission order:
`pre` (backup capture and the engine's compilation of the iterable
expression into `_iterator`, lines 809-810), the `repeat` collaborator
call that initializes the index handle (lines 812-815, executed by
`runRepeat` below), `init` (the pre-binding of every loop name to `None`,
lines 817-822), the loop (`assign` is the loop-entry assignment of `_item`
to the loop targets, line 804; `inner` is the compiled body followed by the
index decrement and the conditional whitespace append, lines 824-834), and
`post` (`_leave_assignment`, line 844). -/
structure RepeatCompiled where
  pre : List Stmt
  init : List Stmt
  assign : List Stmt
  inner : List Stmt
  post : List Stmt

/-- The loop-entry assignment targets of `visit_Repeat` (lines 780-801):
one subscript per context for a single name, a tuple of subscripts per
context for several names. -/
def repeatTargets (contexts : List CtxKind) (names : List String) :
    List Target :=
  match names with
  | [n] => contexts.map (fun c => .sub c n)
  | ns => contexts.map (fun c => .tup (ns.map (fun n => (c, n))))

/-- `Compiler.visit_Repeat` (compiler.py lines 774-847).  `exprStmts` is
the engine's compilation of `node.expression` into `_iterator` and `body`
is the compiled loop body (`self.visit(node.node)`), both parameters as in
`visit_Define`. -/
def visit_Repeat (names : List String) (localScope : Bool)
    (namesId nodeId : Nat) (whitespace : String)
    (exprStmts body : List Stmt) : RepeatCompiled :=
  let contexts := if localScope then [CtxKind.e] else [CtxKind.e, CtxKind.r]
  let index := indexVar nodeId
  { pre := enterAssignment names namesId ++ exprStmts
    init := [.assign (names.map (fun n => Target.sub .e n)) (.lit .vNone)]
    assign := [.assign (repeatTargets contexts names) (.localVar "_item")]
    inner := body ++ [.decr index, .ifPos index [.append (.lit (.vStr whitespace))]]
    post := leaveAssignment names namesId }

/-- The `for _item in _iterator:` loop (lines 837-841) over the items the
wrapped iterator yields: bind `_item`, run the loop-entry assignment and
the inner body, continue with the next item; an uncaught exception aborts
the loop. -/
def runLoop (assignS inner : List Stmt) :
    List Value → RTState → Outcome
  | [], st => .ok st
  | item :: rest, st =>
      match execStmts (Stmt.assignLocal "_item" (.lit item) :: (assignS ++ inner)) st with
      | .ok st2 => runLoop assignS inner rest st2
      | r => r

/-- Execution of a compiled `Repeat` up to (and including) the loop, i.e.
everything before the `_leave_assignment` epilogue.  The external `repeat`
collaborator (`econtext['repeat'](key, _iterator)`, lines 812-815) is
modelled by its contract stated in the spec: the wrapped iterator yields
the given items and the index handle starts at their count. -/
def runRepeatBeforeLeave (rc : RepeatCompiled) (nodeId : Nat)
    (items : List Value) (st : RTState) : Outcome :=
  match execStmts rc.pre st with
  | .ok st1 =>
      let st2 := { st1 with
        locals := setKey st1.locals (indexVar nodeId) (.vNat items.length) }
      match execStmts rc.init st2 with
      | .ok st3 => runLoop rc.assign rc.inner items st3
      | r => r
  | r => r

/-- Execution of a complete compiled `Repeat` construct. -/
def runRepeat (rc : RepeatCompiled) (nodeId : Nat) (items : List Value)
    (st : RTState) : Outcome :=
  match runRepeatBeforeLeave rc nodeId items st with
  | .ok st4 => execStmts rc.post st4
  | r => r

/-! ### Translation blocks -/

/-- Python `\s` on the characters relevant here (the ASCII whitespace class
matched by the `re.compile(r'\s+')` of `RE_REDUCE_WS`, lines 74-80). -/
def isPySpace (c : Char) : Bool :=
  c = ' ' || c = '\t' || c = '\n' || c = '\r' || c = '\x0b' || c = '\x0c'

/-- Replace each maximal run of whitespace by a single space — the action
of `RE_REDUCE_WS` (`functools.partial(re.compile(r'\s+').sub, ' ')`). -/
def reduceWsAux : List Char → Bool → List Char
  | [], _ => []
  | c :: rest, inRun =>
      if isPySpace c then
        if inRun then reduceWsAux rest true
        else ' ' :: reduceWsAux rest true
      else c :: reduceWsAux rest false

/-- `RE_REDUCE_WS` applied to a string. -/
def reduceWs (s : String) : String := String.mk (reduceWsAux s.data false)

/-- Python `str.strip()`: drop leading and trailing whitespace. -/
def pyStrip (s : String) : String :=
  String.mk (((s.data.dropWhile (fun c => isPySpace c)).reverse.dropWhile
    (fun c => isPySpace c)).reverse)

/-- The default message id computed by `visit_Translate` (lines 587-590):
`reduce_whitespace(''.join(stream)).strip()` over the parts the body
buffered. -/
def computeMsgid (parts : List String) : String :=
  pyStrip (reduceWs (String.join parts))

/-- `identifier("msgid", id(node))` (line 587): the local holding the
computed default message id. -/
def msgidVar (nodeId : Nat) : String := "_msgid_" ++ toString nodeId

/-- The `msgid` argument of the emitted translate call: the computed-msgid
local, or a string literal when the node carries an explicit id. -/
inductive TransArg
  | var (x : String)
  | litStr (s : String)
deriving DecidableEq

/-- The arguments of the translate call emitted by `visit_Translate`
(lines 592-618): the message id, the block-name mapping (`None` when no
named sub-blocks were collected), and the default. -/
structure TranslateCall where
  msgidArg : TransArg
  mappingArg : Option (List String)
  defaultArg : String
deriving DecidableEq

/-- The argument computation of `visit_Translate` (compiler.py lines
561-623): `default` is bound to the computed-msgid variable *before* the
explicit-id override, so the default always names the computed value; the
explicit `node.msgid` replaces only the `msgid` argument, and only when it
is truthy (a non-empty string); the mapping is `None` exactly when the
translation block collected no names. -/
def visit_Translate_call (nodeMsgid : Option String)
    (blockNames : List String) (nodeId : Nat) : TranslateCall :=
  let m := msgidVar nodeId
  { msgidArg :=
      match nodeMsgid with
      | some s => if s.isEmpty then .var m else .litStr s
      | none => .var m
    mappingArg := if blockNames.isEmpty then none else some blockNames
    defaultArg := m }

/-- `Compiler.visit_Name` (compiler.py lines 709-737), the guard part.
The source first tests `if self._translations is None` and would raise
`TranslationError("Not allowed outside of translation.", node.name)` — but
`self._translations` is initialized to `[]` in `__init__` (line 334) and
only ever appended to and popped, so it is a list and never `None`, and the
guard cannot fire.  Evaluation then reaches `self._translations[-1]`,
which, outside of any open `Translate` block (empty stack), raises a plain
`IndexError`.  Inside an open block, a duplicate name raises
`TranslationError`, and otherwise the name is added to the open block set.
The statements the successful branch emits (buffer setup, the body with a
redirected output sink, the `$\x7bname\x7d` placeholder text) recurse
through the dispatcher and are not needed by the verified properties; the
function returns the updated translation-block stack. -/
def visit_Name (translations : List (List String)) (name : String) :
    Except CompileErr (List (List String)) :=
  match translations.getLast? with
  | none => .error .indexErrorAtCompile
  | some top =>
      if name ∈ top then
        .error (.translationError ("Duplicate translation name: " ++ name ++ ".") none)
      else .ok (translations.dropLast ++ [top ++ [name]])

/-! ### Projections used to state the properties -/

/-- The final state of a compiled-then-executed construct, when compilation
succeeded and execution completed normally. -/
def finalState (c : Except CompileErr (List Stmt)) (st : RTState) :
    Option RTState :=
  match c with
  | .ok s =>
      match execStmts s st with
      | .ok st2 => some st2
      | .raised _ _ => none
  | .error _ => none

/-- The output stream of a normally completed outcome. -/
def streamOf : Outcome → Option (List Value)
  | .ok st => some st.stream
  | .raised _ _ => none

/-- The `econtext` binding of `name` in a normally completed outcome. -/
def econtextOf (o : Outcome) (name : String) : Option (Option Value) :=
  match o with
  | .ok st => some (getKey name st.econtext)
  | .raised _ _ => none

/-- The `rcontext` mapping carried by any outcome (normal or raising). -/
def rcontextOfAny : Outcome → VMap
  | .ok st => st.rcontext
  | .raised _ st => st.rcontext

/-- Whether a statement is one of the `_leave_assignment` restore
statements (which read and write `econtext` only). -/
def isRestoreStmt : Stmt → Bool
  | .restore _ _ => true
  | _ => false

/-- Occurrences of the literal string `ws` among the output units. -/
def countWs (ws : String) : List Value → Nat
  | [] => 0
  | v :: rest =>
      (match v with | .vStr s => if s = ws then 1 else 0 | _ => 0) +
        countWs ws rest

/-! ### Concrete instantiations used by the properties -/

/-- A body that appends one literal output unit per listed string. -/
def appendAll (outs : List String) : List Stmt :=
  outs.map (fun s => .append (.lit (.vStr s)))

/-- A template-level expression node instance (one fixed identity). -/
def sampleExpr : TExpr := .expression 7 "x"

/-- A loop body that appends the current value of the loop variable:
the engine-compiled body of a `Repeat` whose contents emit the item. -/
def sampleBody (name : String) : List Stmt :=
  [.append (.econtextGetOr name .vNone)]

/-- The engine's compilation of the iterable expression into `_iterator`
(the engine is the external expression collaborator; its output binds the
iterable to `_iterator`). -/
def sampleIter (items : List Value) : List Stmt :=
  [.assignLocal "_iterator" (.lit (.vList items))]

/-- A compiled single-variable local `Repeat` construct (names-list
identity token 1, node identity token 2) over the given items. -/
def sampleRepeat (name ws : String) (items : List Value) : RepeatCompiled :=
  visit_Repeat [name] true 1 2 ws (sampleIter items) (sampleBody name)

/-- The loop-entry assignment of `sampleRepeat` (single local name). -/
def sampleAssign (name : String) : List Stmt :=
  [.assign [.sub .e name] (.localVar "_item")]

/-- The inner loop statements of `sampleRepeat`: body, index decrement,
conditional whitespace. -/
def sampleInner (name ws : String) : List Stmt :=
  sampleBody name ++
    [.decr (indexVar 2), .ifPos (indexVar 2) [.append (.lit (.vStr ws))]]

/-- The state transformer realized by one full pass of `sampleRepeat`'s
loop: per item, the loop variable is stored, the item is emitted, the index
handle is decremented, and the separator is emitted unless the item was the
last one. -/
def sampleLoopState (name ws : String) : List Value → RTState → RTState
  | [], st => st
  | v :: rest, st =>
      sampleLoopState name ws rest
        { st with
          econtext := setKey st.econtext name v,
          locals := setKey (setKey st.locals "_item" v) (indexVar 2)
            (.vNat rest.length),
          stream := st.stream ++ [v] ++
            (if rest.length = 0 then [] else [.vStr ws]) }

/-- The runtime state right after the `repeat` collaborator call and the
`None` pre-binding of `sampleRepeat`'s loop variable, starting from the
empty state. -/
def sampleAfterInit (name : String) (items : List Value) : RTState :=
  ⟨[(name, .vNone)], [],
   [(indexVar 2, .vNat items.length), ("_iterator", .vList items),
    (backupVar name 1, .vMarker)], []⟩

/-- The nested-`OnError` body used to exercise the shared recorded-length
local: one unit, a completed inner `OnError`, one more unit, then a
recoverable raise. -/
def nestedOnErrorBody : List Stmt :=
  [.append (.lit (.vStr "a"))] ++
    visit_OnError [.append (.lit (.vStr "i"))] [.append (.lit (.vStr "g"))] ++
    [.append (.lit (.vStr "b")), .raiseE .typeError]

/-! ### Helper lemmas about the semantics -/

theorem getKey_setKey_self (m : VMap) (k : String) (v : Value) :
    getKey k (setKey m k v) = some v := by
  simp [getKey, setKey]

theorem getKey_setKey_ne (m : VMap) (k k2 : String) (v : Value) (h : k2 ≠ k) :
    getKey k (setKey m k2 v) = getKey k m := by
  simp [getKey, setKey, h]

theorem execStmts_append (l1 l2 : List Stmt) : ∀ st : RTState,
    execStmts (l1 ++ l2) st =
      match execStmts l1 st with
      | .ok st2 => execStmts l2 st2
      | r => r := by
  induction l1 with
  | nil => intro st; simp [execStmts]
  | cons s rest ih =>
      intro st
      simp only [List.cons_append, execStmts]
      cases execStmt s st with
      | ok st2 => exact ih st2
      | raised c st2 => rfl

theorem execStmts_appendAll (l : List String) : ∀ st : RTState,
    execStmts (appendAll l) st =
      .ok { st with stream := st.stream ++ l.map Value.vStr } := by
  induction l with
  | nil => intro st; simp [appendAll, execStmts]
  | cons x xs ih =>
      intro st
      simp only [appendAll, List.map_cons, execStmts, execStmt, evalExpr]
      rw [show (appendAll xs = List.map (fun s => Stmt.append (.lit (.vStr s))) xs) from rfl] at ih
      rw [ih]
      simp

theorem backupVar_ne_item (n : String) : backupVar n 1 ≠ "_item" := by
  intro h
  have h2 := congrArg String.length h
  simp only [backupVar, String.length_append] at h2
  have e1 : "_backup_".length = 8 := rfl
  have e2 : "_".length = 1 := rfl
  have e3 : (toString (1 : Nat)).length = 1 := rfl
  have e4 : "_item".length = 5 := rfl
  omega

theorem backupVar_ne_iterator (n : String) : backupVar n 1 ≠ "_iterator" := by
  intro h
  have h2 := congrArg String.length h
  simp only [backupVar, String.length_append] at h2
  have e1 : "_backup_".length = 8 := rfl
  have e2 : "_".length = 1 := rfl
  have e3 : (toString (1 : Nat)).length = 1 := rfl
  have e4 : "_iterator".length = 9 := rfl
  omega

theorem backupVar_ne_index (n : String) : backupVar n 1 ≠ indexVar 2 := by
  intro h
  have h2 := congrArg String.length h
  simp only [backupVar, indexVar, String.length_append] at h2
  have e1 : "_backup_".length = 8 := rfl
  have e2 : "_".length = 1 := rfl
  have e3 : (toString (1 : Nat)).length = 1 := rfl
  have e4 : "__index_".length = 8 := rfl
  have e5 : (toString (2 : Nat)).length = 1 := rfl
  omega

/-! ### The verified properties -/

/-- C1 (evaluation at the failing input): for a `Define` with two
assignments — `x` then `y`, both local, both names absent from an empty
initial `econtext` — the compiled construct backs up both names on entry
but its epilogue restores only the names of the **last** assignment
(`_leave_assignment(names)` at line 536 uses the loop variable left over
from the assignment loop at line 523), so after the construct fully exits
`x` is still bound in `econtext` while `y` has been correctly removed.
The stated shadow-restore law requires both to be absent. -/
theorem C1_define_multi_assignment_restore_leak :
    (finalState
        (visit_Define
          [⟨["x"], true, 1, [.assignLocal "_value" (.lit (.vNat 1))]⟩,
           ⟨["y"], true, 2, [.assignLocal "_value" (.lit (.vNat 2))]⟩]
          [])
        emptyState).map
      (fun st => (getKey "x" st.econtext, getKey "y" st.econtext))
      = some (some (.vNat 1), none) := by
  rfl

/-- C2 (counterexample): compiling the same template-level `Expression`
node instance twice, into `_t1` and then `_t2`, within one compilation does
**not** emit a single assignment from a cached variable the second time:
`ExpressionCompiler.translate` caches only raw `ast.expr` inputs (line
222-224), so the second compilation dispatches to the visitor again and
re-invokes the expression engine. -/
theorem C2_cache_counterexample :
    (translate (translate [] sampleExpr "_t1").2 sampleExpr "_t2").1 =
      [.comment " <Expression x> -> _t2", .engineCall "x" "_t2"] ∧
    ([EStmt.comment " <Expression x> -> _t2", .engineCall "x" "_t2"] ≠
      [EStmt.assign "_t2" (.var "_t1")]) := by
  exact ⟨rfl, by decide⟩

/-- C2 (amended): a second compilation of an expression reuses the cached
variable through a single assignment exactly when the expression was cached
by its first compilation — which happens when the expression is a raw,
already-lowered `ast.expr`, or when a `Cache` construct pre-compiled it:
(1) any cached expression compiles to the single assignment from the cached
variable, with no re-evaluation and no cache change; (2) a raw expression
is cached by its first compilation and its second compilation is the single
assignment from the first target; (3) `visit_Cache` primes the cache for an
arbitrary expression node, after which compiling that node emits the single
assignment from the cache variable. -/
theorem C2_cache_amended :
    (∀ (cache : ECache) (e : TExpr) (t v : String),
        assocFind (tid e) cache = some v →
        translate cache e t = ([.assign t (.var v)], cache)) ∧
    (∀ (cache : ECache) (eid : Nat) (t1 t2 : String),
        assocFind eid cache = none →
        translate (translate cache (.rawExpr eid) t1).2 (.rawExpr eid) t2 =
          ([.assign t2 (.var t1)], (eid, t1) :: cache)) ∧
    (∀ (cache : ECache) (e : TExpr) (t : String),
        assocFind (tid e) cache = none →
        translate (visit_Cache cache [e]).2 e t =
          ([.assign t (.var (cacheVarName (tid e)))],
            (visit_Cache cache [e]).2)) := by
  refine ⟨?_, ?_, ?_⟩
  · intro cache e t v h
    cases e <;> simp [translate, tid] at h ⊢ <;> simp [h]
  · intro cache eid t1 t2 h
    have h1 : translate cache (.rawExpr eid) t1 =
        ([.assign t1 (.rawRef eid)], (eid, t1) :: cache) := by
      simp [translate, tid, h]
    rw [h1]
    simp [translate, tid, assocFind]
  · intro cache e t h
    have h1 : visit_Cache cache [e] =
        ((translate cache e (cacheVarName (tid e))).1,
          (tid e, cacheVarName (tid e)) :: (translate cache e (cacheVarName (tid e))).2) := by
      simp [visit_Cache, h]
    rw [h1]
    cases e <;> simp [translate, tid, assocFind]

/-- C2 (witness for the amended theorem): concrete instances of its three
parts. -/
theorem C2_cache_amended_witness :
    (translate [(5, "_t0")] (.rawExpr 5) "_t9" =
      ([.assign "_t9" (.var "_t0")], [(5, "_t0")])) ∧
    (translate (translate [] (.rawExpr 3) "_a").2 (.rawExpr 3) "_b" =
      ([.assign "_b" (.var "_a")], [(3, "_a")])) ∧
    (translate (visit_Cache [] [sampleExpr]).2 sampleExpr "_c" =
      ([.assign "_c" (.var (cacheVarName 7))], (visit_Cache [] [sampleExpr]).2)) := by
  exact ⟨C2_cache_amended.1 [(5, "_t0")] (.rawExpr 5) "_t9" "_t0" rfl,
         C2_cache_amended.2.1 [] 3 "_a" "_b" rfl,
         C2_cache_amended.2.2 [] sampleExpr "_c" rfl⟩

/-- C3 (counterexample): a read of `len` is **not** rewritten to the
dynamic-context lookup with builtin fallback: `len` is listed in
`COMPILER_INTERNALS_OR_DISALLOWED`, and `_dynamic_transform` returns
internal names untouched before the builtin-fallback case is ever
reached (lines 250-251). -/
theorem C3_rewrite_counterexample :
    dynamicTransform "len" .loadCtx = .unchanged "len" ∧
    Rewritten.unchanged "len" ≠ .econtextGetFallback "len" := by
  exact ⟨by decide, by decide⟩

/-- C3 (amended): the dynamic name rewrite leaves a read of `len`
untouched (it is compiler-internal, so the builtin-fallback rewrite does
not apply to it); a read of a host builtin that is *not*
compiler-internal, e.g. `max`, becomes the `econtext` lookup with builtin
fallback; a read of an underscore name such as `_private` is left
untouched; and a write of a non-internal name `x` becomes a store into
`econtext['x']`. -/
theorem C3_rewrite_amended :
    dynamicTransform "len" .loadCtx = .unchanged "len" ∧
    dynamicTransform "max" .loadCtx = .econtextGetFallback "max" ∧
    dynamicTransform "_private" .loadCtx = .unchanged "_private" ∧
    dynamicTransform "x" .storeCtx = .storeEcontext "x" := by
  refine ⟨by decide, by decide, by decide, by decide⟩

/-- C7: for a `Translate` node without an explicit message id and with no
named sub-blocks, the computed default message id is the body's buffered
text with whitespace runs collapsed to one space and the ends trimmed —
`"  Hello   World  "` yields `"Hello World"` — and the emitted translate
call passes the computed-msgid variable as both the `msgid` argument and
the `default` argument (with no mapping). -/
theorem C7_translate_default_msgid (nodeId : Nat) :
    computeMsgid ["  Hello   World  "] = "Hello World" ∧
    visit_Translate_call none [] nodeId =
      { msgidArg := .var (msgidVar nodeId), mappingArg := none,
        defaultArg := msgidVar nodeId } := by
  exact ⟨rfl, rfl⟩

/-- C8: compiling a `Define` whose assignment names include the
compiler-internal name `stream` aborts compilation with the descriptive
`TranslationError` carrying the offending name, and the compilation result
therefore contains no emitted statements at all. -/
theorem C8_define_disallowed_name :
    visit_Define [⟨["stream"], true, 1, []⟩] [] =
      .error (.translationError "Name disallowed by compiler: stream." none) := by
  rfl

/-- C9 (evaluation at the failing input): compiling a `Name` node with no
open `Translate` block (empty translation-block stack) aborts compilation,
but through a plain `IndexError` from `self._translations[-1]` on the empty
stack, not through the `TranslationError` carrying the offending name: the
guard `if self._translations is None` (line 712) never fires because the
field is initialized to `[]` and is never `None`. -/
theorem C9_name_outside_translate :
    visit_Name [] "counter" = .error .indexErrorAtCompile ∧
    (∀ (msg : String) (arg : Option String),
      CompileErr.indexErrorAtCompile ≠ .translationError msg arg) := by
  refine ⟨rfl, ?_⟩
  intro msg arg
  simp

/-- C10: the epilogue emitted on leaving a `Define` or `Repeat` consists
exclusively of `_leave_assignment` restore statements, whose execution
reads and writes `econtext` only — the `rcontext` mapping of the resulting
state (normal or raising) is always that of the entry state — and a value
written to `rcontext` by a non-local assignment is still present in
`rcontext` after the construct fully exits, while the `econtext` binding
has been rolled back. -/
theorem C10_restore_econtext_only :
    (∀ (names : List String) (namesId : Nat),
        (leaveAssignment names namesId).all isRestoreStmt = true) ∧
    (∀ (b n : String) (st : RTState),
        rcontextOfAny (execStmts [.restore b n] st) = st.rcontext) ∧
    (finalState
        (visit_Define [⟨["x"], false, 3, [.assignLocal "_value" (.lit (.vNat 42))]⟩] [])
        emptyState).map
      (fun st => (getKey "x" st.econtext, getKey "x" st.rcontext))
      = some (none, some (.vNat 42)) := by
  refine ⟨?_, ?_, rfl⟩
  · intro names namesId
    simp [leaveAssignment, isRestoreStmt, List.all_eq_true]
  · intro b n st
    have h1 : execStmts [Stmt.restore b n] st = execStmt (.restore b n) st := by
      simp only [execStmts]
      cases execStmt (.restore b n) st <;> rfl
    rw [h1]
    simp only [execStmt]
    cases hb : getKey b st.locals with
    | none => rfl
    | some v =>
        cases v with
        | vMarker =>
            cases he : getKey n st.econtext with
            | none => rfl
            | some w => rfl
        | vStr s => rfl
        | vNat m => rfl
        | vNone => rfl
        | vItem m => rfl
        | vList l => rfl

/-- C4 (counterexample): all `OnError` constructs of one compiled program
share the single recorded-length local (`identifier("_fallback")`, line
445, whose suffix is the identity of the one interned string literal), so
an inner `OnError` inside the body overwrites the length recorded by the
outer one: a body that appends `"a"`, runs a completed inner `OnError`
appending `"i"`, appends `"b"` and then raises a recoverable `TypeError`
leaves `["a", "f"]` in the stream — the unit `"a"` appended by the failed
body survives the rollback, where the stated property requires `["f"]`. -/
theorem C4_onerror_counterexample :
    streamOf (execStmts
        (visit_OnError nestedOnErrorBody [.append (.lit (.vStr "f"))])
        emptyState)
      = some [.vStr "a", .vStr "f"] ∧
    some [Value.vStr "a", Value.vStr "f"] ≠ some [Value.vStr "f"] := by
  refine ⟨rfl, by simp⟩

/-- C4 (amended): for an `OnError` construct whose body does not itself
contain a nested `OnError` (here: a body that appends its output units and
then raises), the compensating rollback behaves as stated: if the raised
class matches the emitted `except (NameError, ValueError, AttributeError,
LookupError, TypeError)` clause (Python matching, which includes
subclasses such as `KeyError < LookupError`), every unit the body appended
is removed — the stream is truncated back to the recorded entry length —
and the fallback body's output is appended instead; if the class matches
none of them, the exception propagates uncaught, past the construct. -/
theorem C4_onerror_amended (st : RTState) (outs fbOuts : List String)
    (c : ExcClass) :
    (excMatchesAny c exceptions = true →
      execStmts (visit_OnError (appendAll outs ++ [.raiseE c]) (appendAll fbOuts)) st =
        .ok { st with
          locals := setKey st.locals fallbackVar (.vNat st.stream.length),
          stream := st.stream ++ fbOuts.map Value.vStr }) ∧
    (excMatchesAny c exceptions = false →
      execStmts (visit_OnError (appendAll outs ++ [.raiseE c]) (appendAll fbOuts)) st =
        .raised c { st with
          locals := setKey st.locals fallbackVar (.vNat st.stream.length),
          stream := st.stream ++ outs.map Value.vStr }) := by
  have hbody : ∀ st2 : RTState,
      execStmts (appendAll outs ++ [.raiseE c]) st2 =
        .raised c { st2 with stream := st2.stream ++ outs.map Value.vStr } := by
    intro st2
    rw [execStmts_append, execStmts_appendAll]
    simp [execStmts, execStmt]
  constructor
  · intro hc
    simp only [visit_OnError, execStmts, execStmt, evalExpr]
    rw [hbody]
    simp only [hc, if_pos rfl]
    simp only [execStmts, execStmt, getKey_setKey_self]
    rw [List.take_left, execStmts_appendAll]
    simp
  · intro hc
    simp only [visit_OnError, execStmts, execStmt, evalExpr]
    rw [hbody]
    simp [hc]

/-- C4 (witness for the amended theorem): a body appending 3 units then
raising `TypeError` with a fallback appending 1 unit leaves exactly the 1
fallback unit; a body raising `ZeroDivisionError` (matching none of the
recoverable classes) propagates with its partial output intact. -/
theorem C4_onerror_amended_witness :
    (execStmts (visit_OnError (appendAll ["a", "b", "c"] ++ [.raiseE .typeError])
        (appendAll ["f"])) emptyState =
      .ok ⟨[], [], [(fallbackVar, .vNat 0)], [.vStr "f"]⟩) ∧
    (execStmts (visit_OnError (appendAll ["a"] ++ [.raiseE .zeroDivisionError])
        (appendAll ["f"])) emptyState =
      .raised .zeroDivisionError ⟨[], [], [(fallbackVar, .vNat 0)], [.vStr "a"]⟩) := by
  exact ⟨(C4_onerror_amended emptyState ["a", "b", "c"] ["f"] .typeError).1 rfl,
         (C4_onerror_amended emptyState ["a"] ["f"] .zeroDivisionError).2 rfl⟩

theorem sample_iteration (name ws : String) (v : Value) (k : Nat)
    (st : RTState) (h : getKey (indexVar 2) st.locals = some (.vNat (k + 1))) :
    execStmts
        (Stmt.assignLocal "_item" (.lit v) :: (sampleAssign name ++ sampleInner name ws)) st =
      .ok { st with
        econtext := setKey st.econtext name v,
        locals := setKey (setKey st.locals "_item" v) (indexVar 2) (.vNat k),
        stream := st.stream ++ [v] ++ (if k = 0 then [] else [.vStr ws]) } := by
  have hne : ("_item" : String) ≠ indexVar 2 := by decide
  cases k with
  | zero =>
      simp [sampleAssign, sampleInner, sampleBody, execStmts, execStmt, evalExpr,
        storeTargets, storeTarget, storeSub, getKey_setKey_self, getKey_setKey_ne,
        hne, h]
  | succ k2 =>
      simp [sampleAssign, sampleInner, sampleBody, execStmts, execStmt, evalExpr,
        storeTargets, storeTarget, storeSub, getKey_setKey_self, getKey_setKey_ne,
        hne, h]

theorem sample_loop_run (name ws : String) : ∀ (items : List Value) (st : RTState),
    getKey (indexVar 2) st.locals = some (.vNat items.length) →
    runLoop (sampleAssign name) (sampleInner name ws) items st =
      .ok (sampleLoopState name ws items st) := by
  intro items
  induction items with
  | nil => intro st h; simp [runLoop, sampleLoopState]
  | cons v rest ih =>
      intro st h
      rw [runLoop, sample_iteration name ws v rest.length st (by simpa using h)]
      rw [sampleLoopState]
      exact ih _ (by rw [getKey_setKey_self])

theorem sample_loopState_stream (name ws : String) :
    ∀ (items : List Value) (st : RTState),
      (sampleLoopState name ws items st).stream =
        st.stream ++ List.intersperse (.vStr ws) items := by
  intro items
  induction items with
  | nil => intro st; simp [sampleLoopState]
  | cons v rest ih =>
      intro st
      rw [sampleLoopState, ih]
      cases rest with
      | nil => simp [List.intersperse]
      | cons y r2 => simp [List.intersperse]

theorem sample_loopState_locals (name ws k : String) (hk1 : k ≠ "_item")
    (hk2 : k ≠ indexVar 2) : ∀ (items : List Value) (st : RTState),
      getKey k (sampleLoopState name ws items st).locals = getKey k st.locals := by
  intro items
  induction items with
  | nil => intro st; rw [sampleLoopState]
  | cons v rest ih =>
      intro st
      rw [sampleLoopState, ih]
      rw [getKey_setKey_ne _ _ _ _ (Ne.symm hk2), getKey_setKey_ne _ _ _ _ (fun e => hk1 e.symm)]

theorem sample_loopState_econtext (name ws : String) :
    ∀ (items : List Value) (st : RTState),
      (getKey name st.econtext).isSome = true →
      (getKey name (sampleLoopState name ws items st).econtext).isSome = true := by
  intro items
  induction items with
  | nil => intro st h; rw [sampleLoopState]; exact h
  | cons v rest ih =>
      intro st h
      rw [sampleLoopState]
      exact ih _ (by rw [getKey_setKey_self]; rfl)

theorem sample_loopState_rcontext (name ws : String) :
    ∀ (items : List Value) (st : RTState),
      (sampleLoopState name ws items st).rcontext = st.rcontext := by
  intro items
  induction items with
  | nil => intro st; rw [sampleLoopState]
  | cons v rest ih => intro st; rw [sampleLoopState, ih]

theorem countWs_cons (ws : String) (v : Value) (l : List Value) :
    countWs ws (v :: l) =
      (match v with | Value.vStr s => if s = ws then 1 else 0 | _ => 0) +
        countWs ws l := by
  cases v <;> rfl

theorem countWs_intersperse (ws : String) : ∀ (items : List Value),
    countWs ws items = 0 →
    countWs ws (List.intersperse (.vStr ws) items) = items.length - 1 := by
  intro items
  induction items with
  | nil => intro h; simp [countWs, List.intersperse]
  | cons x xs ih =>
      intro h
      cases xs with
      | nil => simpa [List.intersperse] using h
      | cons y r =>
          rw [countWs_cons] at h
          have hx0 : (match x with | Value.vStr s => if s = ws then 1 else 0 | _ => 0) = 0 := by
            omega
          have hrest : countWs ws (y :: r) = 0 := by omega
          have hih := ih hrest
          show countWs ws (x :: Value.vStr ws :: List.intersperse (.vStr ws) (y :: r)) =
            (x :: y :: r).length - 1
          rw [countWs_cons, countWs_cons, hih, hx0]
          simp
          omega

theorem sample_before_leave (name ws : String) (items : List Value) :
    runRepeatBeforeLeave (sampleRepeat name ws items) 2 items emptyState =
      .ok (sampleLoopState name ws items (sampleAfterInit name items)) := by
  have hpre : execStmts (sampleRepeat name ws items).pre emptyState =
      .ok ⟨[], [], [("_iterator", .vList items), (backupVar name 1, .vMarker)], []⟩ := by
    simp [sampleRepeat, visit_Repeat, enterAssignment, sampleIter, execStmts, execStmt,
      evalExpr, emptyState, getKey, setKey]
  have ha : (sampleRepeat name ws items).assign = sampleAssign name := rfl
  have hi : (sampleRepeat name ws items).inner = sampleInner name ws := rfl
  have hinit : (sampleRepeat name ws items).init =
      [.assign [.sub .e name] (.lit .vNone)] := rfl
  rw [runRepeatBeforeLeave, hpre]
  simp only [ha, hi, hinit]
  have hinitexec : execStmts [Stmt.assign [.sub .e name] (.lit .vNone)]
      (⟨[], [],
        setKey [("_iterator", .vList items), (backupVar name 1, .vMarker)]
          (indexVar 2) (.vNat items.length), []⟩ : RTState) =
      .ok (sampleAfterInit name items) := by
    simp [execStmts, execStmt, evalExpr, storeTargets, storeTarget, storeSub,
      sampleAfterInit, setKey]
  rw [hinitexec]
  exact sample_loop_run name ws items _ (by rw [sampleAfterInit]; rw [getKey]; simp)

/-- C5: executing a compiled single-variable `Repeat` over N items (the
`repeat` collaborator yielding those items with the index handle starting
at N) produces exactly the items interleaved with the construct's
inter-item whitespace — the whitespace appears after each item's body
output and before the next item's, hence, when no item's own output equals
the whitespace unit, exactly N-1 whitespace emissions. -/
theorem C5_repeat_separators (name ws : String) (items : List Value)
    (_hne : items ≠ []) (hws : countWs ws items = 0) :
    streamOf (runRepeat (sampleRepeat name ws items) 2 items emptyState) =
      some (List.intersperse (.vStr ws) items) ∧
    (streamOf (runRepeat (sampleRepeat name ws items) 2 items emptyState)).map
        (countWs ws) = some (items.length - 1) := by
  have hfinalstream : (sampleLoopState name ws items (sampleAfterInit name items)).stream =
      List.intersperse (.vStr ws) items := by
    rw [sample_loopState_stream]
    rfl
  have hbk : getKey (backupVar name 1)
      (sampleLoopState name ws items (sampleAfterInit name items)).locals =
      some .vMarker := by
    rw [sample_loopState_locals name ws _ (backupVar_ne_item name) (backupVar_ne_index name)]
    simp [sampleAfterInit, getKey, Ne.symm (backupVar_ne_index name),
      Ne.symm (backupVar_ne_iterator name)]
  have hecsome : (getKey name
      (sampleLoopState name ws items (sampleAfterInit name items)).econtext).isSome = true := by
    exact sample_loopState_econtext name ws items _ (by simp [sampleAfterInit, getKey])
  obtain ⟨w, hw⟩ := Option.isSome_iff_exists.mp hecsome
  have hpost : execStmts (sampleRepeat name ws items).post
      (sampleLoopState name ws items (sampleAfterInit name items)) =
      .ok { sampleLoopState name ws items (sampleAfterInit name items) with
        econtext := delKey (sampleLoopState name ws items (sampleAfterInit name items)).econtext
          name } := by
    have hp : (sampleRepeat name ws items).post = [Stmt.restore (backupVar name 1) name] := rfl
    rw [hp]
    simp [execStmts, execStmt, hbk, hw]
  have hrun : runRepeat (sampleRepeat name ws items) 2 items emptyState =
      .ok { sampleLoopState name ws items (sampleAfterInit name items) with
        econtext := delKey (sampleLoopState name ws items (sampleAfterInit name items)).econtext
          name } := by
    rw [runRepeat, sample_before_leave]
    exact hpost
  rw [hrun]
  refine ⟨by simp [streamOf, hfinalstream], ?_⟩
  simp [streamOf, hfinalstream]
  exact countWs_intersperse ws items hws

/-- C5 (witness): three items with separator `"|"` produce the two
separators interleaved in order. -/
theorem C5_repeat_separators_witness :
    streamOf (runRepeat (sampleRepeat "x" "|" [.vItem 1, .vItem 2, .vItem 3]) 2
        [.vItem 1, .vItem 2, .vItem 3] emptyState) =
      some [.vItem 1, .vStr "|", .vItem 2, .vStr "|", .vItem 3] ∧
    (streamOf (runRepeat (sampleRepeat "x" "|" [.vItem 1, .vItem 2, .vItem 3]) 2
        [.vItem 1, .vItem 2, .vItem 3] emptyState)).map (countWs "|") = some 2 := by
  exact C5_repeat_separators "x" "|" [.vItem 1, .vItem 2, .vItem 3]
    (by simp) rfl

/-- C6: executing a compiled single-variable `Repeat` over an empty
iterable leaves the loop variable bound to the `None` placeholder in
`econtext` after the zero-iteration loop (before the scope-restore
epilogue runs), and the complete construct appends no inter-item
whitespace — the output stream stays empty. -/
theorem C6_repeat_empty (name ws : String) :
    econtextOf (runRepeatBeforeLeave (sampleRepeat name ws []) 2 [] emptyState) name =
      some (some .vNone) ∧
    streamOf (runRepeat (sampleRepeat name ws []) 2 [] emptyState) = some [] := by
  have hbefore := sample_before_leave name ws []
  constructor
  · rw [hbefore]
    simp [econtextOf, sampleLoopState, sampleAfterInit, getKey]
  · have hbk : getKey (backupVar name 1) (sampleAfterInit name []).locals =
        some .vMarker := by
      simp [sampleAfterInit, getKey, Ne.symm (backupVar_ne_index name),
        Ne.symm (backupVar_ne_iterator name)]
    have hec : getKey name (sampleAfterInit name []).econtext = some .vNone := by
      simp [sampleAfterInit, getKey]
    have hpost : execStmts (sampleRepeat name ws []).post (sampleAfterInit name []) =
        .ok { sampleAfterInit name [] with
          econtext := delKey (sampleAfterInit name []).econtext name } := by
      have hp : (sampleRepeat name ws []).post = [Stmt.restore (backupVar name 1) name] := rfl
      rw [hp]
      simp [execStmts, execStmt, hbk, hec]
    rw [runRepeat, hbefore]
    show streamOf (execStmts (sampleRepeat name ws []).post (sampleAfterInit name [])) = some []
    rw [hpost]
    rfl

end ChameleonCompiler
